import Mathlib

/-!
Verification of the task-list core of the CopilotStudyGuide repository:
the data-fetching hook `useTask` (src/src/Components/hooks/useTasks.tsx)
and the `Tasks` view component that consumes it.

The hook owns a list of tasks and a loading flag.  Its three mutation
surfaces are embedded here:
  * `handleNewTask`  — `setTasks(prev => [...prev, {id: Math.random(), title: newTask, description: "", completed: true}])`
  * `handleDeleteTask` — `setTasks(prev => prev.filter(task => task.id !== id))`
  * `getTasks` — the one-shot async load in `useEffect`, with its
    try/catch/finally structure made explicit as a total function over an
    outcome type.

JavaScript numbers are modelled as `Int`; the only operation the source
ever performs on a task id is equality comparison (`task.id !== id`,
React keys), so the carrier type is irrelevant beyond decidable equality.
The value produced by `Math.random()` is nondeterministic, so the freshly
generated id is passed to `handleNewTask` as an explicit argument.
-/

namespace TaskHook

/-- The `Task` interface of useTasks.tsx:
`{ id: number; title: string; description: string; completed: boolean }`. -/
structure Task where
  id : Int
  title : String
  description : String
  completed : Bool
  deriving DecidableEq, Repr

/-- The state owned by the hook: `useState<Task[]>([])` and
`useState(true)` for the loading flag.  The hook holds no error state;
this structure mirrors that (there is no error field to set). -/
structure StoreState where
  tasks : List Task
  loading : Bool
  deriving DecidableEq, Repr

/-- The state at store creation: empty collection, loading `true`. -/
def initialState : StoreState := { tasks := [], loading := true }

/-- `handleNewTask` from useTasks.tsx: spreads the previous list and
appends one record `{id: Math.random(), title: newTask, description: "",
completed: true}`.  The nondeterministic `Math.random()` result is the
explicit `freshId` argument. -/
def handleNewTask (freshId : Int) (newTask : String) (prev : List Task) : List Task :=
  prev ++ [{ id := freshId, title := newTask, description := "", completed := true }]

/-- `handleDeleteTask` from useTasks.tsx:
`prev.filter(task => task.id !== id)`. -/
def handleDeleteTask (id : Int) (prev : List Task) : List Task :=
  prev.filter (fun task => task.id ≠ id)

/-- The possible outcomes of the `fetch("./tasks.json")` /
`response.json()` sequence inside `getTasks`: the fetch itself rejects,
the response is not ok (the code then throws `new Error("error")`), the
body fails to parse as JSON, or parsing succeeds with a payload. -/
inductive FetchResult where
  | networkError
  | httpError
  | parseError
  | success (data : List Task)
  deriving DecidableEq, Repr

/-- Whether a fetch outcome is one of the three failure modes. -/
def FetchResult.isFailure : FetchResult → Bool
  | .networkError => true
  | .httpError => true
  | .parseError => true
  | .success _ => false

/-- `getTasks` from useTasks.tsx, as a total state transformer: on
success the `try` block reaches `setTasks(data)`; on any of the three
failure modes the thrown error is caught by the empty `catch {}` and the
tasks are left as they were; in every case the `finally` block runs
`setLoading(false)`.  Totality of this function is the shallow
counterpart of "no error escapes `getTasks`". -/
def getTasks (r : FetchResult) (s : StoreState) : StoreState :=
  match r with
  | .success data => { tasks := data, loading := false }
  | .networkError => { s with loading := false }
  | .httpError => { s with loading := false }
  | .parseError => { s with loading := false }

/-- C1: `createTask` appends exactly one task carrying the given title,
empty description and `completed = true`, leaving the existing prefix
untouched. -/
theorem handleNewTask_appends (freshId : Int) (t : String) (prev : List Task) :
    (handleNewTask freshId t prev).length = prev.length + 1 ∧
    (handleNewTask freshId t prev).take prev.length = prev ∧
    (handleNewTask freshId t prev).getLast? =
      some { id := freshId, title := t, description := "", completed := true } := by
  refine ⟨?_, ?_, ?_⟩
  · simp [handleNewTask]
  · simp [handleNewTask, List.take_left]
  · simp [handleNewTask]

/-- C2: `deleteTask` keeps a subsequence of the previous collection (so
relative order is preserved), removes every task carrying the requested
id, retains every other task, and is the identity when no task matches. -/
theorem handleDeleteTask_removes (id : Int) (prev : List Task) :
    (handleDeleteTask id prev).Sublist prev ∧
    (∀ t ∈ handleDeleteTask id prev, t.id ≠ id) ∧
    (∀ t ∈ prev, t.id ≠ id → t ∈ handleDeleteTask id prev) ∧
    ((∀ t ∈ prev, t.id ≠ id) → handleDeleteTask id prev = prev) := by
  refine ⟨List.filter_sublist prev, ?_, ?_, ?_⟩
  · intro t ht
    have := List.of_mem_filter ht
    simpa using this
  · intro t ht hne
    exact List.mem_filter.mpr ⟨ht, by simpa using hne⟩
  · intro h
    apply List.filter_eq_self.mpr
    intro t ht
    simpa using h t ht

/-- Instantiation of the C2 theorem: deleting id 5 from a collection
whose sole task has id 1 leaves the collection unchanged. -/
theorem handleDeleteTask_removes_witness :
    handleDeleteTask 5 [{ id := 1, title := "a", description := "", completed := true }] =
      [{ id := 1, title := "a", description := "", completed := true }] :=
  (handleDeleteTask_removes 5 _).2.2.2 (by decide)

/-- C3: when the one-shot load fails in any of the three ways, the state
settles as the empty collection with the loading flag cleared; `getTasks`
being a total function into `StoreState` (a type with no error field)
reflects that the `catch {}` block swallows the error. -/
theorem getTasks_failure (r : FetchResult) (h : r.isFailure = true) :
    getTasks r initialState = { tasks := [], loading := false } := by
  cases r with
  | networkError => rfl
  | httpError => rfl
  | parseError => rfl
  | success data => simp [FetchResult.isFailure] at h

/-- Instantiation of the C3 theorem at a network error. -/
theorem getTasks_failure_witness :
    getTasks FetchResult.networkError initialState = { tasks := [], loading := false } :=
  getTasks_failure FetchResult.networkError rfl

/-- C4: a successful load replaces the collection wholesale; with the
payload `[{id:1, title:"buy milk", description:"", completed:false}]` the
settled state holds exactly that element and loading is `false`. -/
theorem getTasks_success_buyMilk :
    getTasks
        (FetchResult.success
          [{ id := 1, title := "buy milk", description := "", completed := false }])
        initialState =
      { tasks := [{ id := 1, title := "buy milk", description := "", completed := false }],
        loading := false } :=
  rfl

/-- The events a store instance can experience after creation: the single
fetch settling (with some outcome), a `handleNewTask` call (the freshly
generated id made explicit), or a `handleDeleteTask` call. -/
inductive Event where
  | settle (r : FetchResult)
  | create (freshId : Int) (title : String)
  | delete (id : Int)
  deriving DecidableEq, Repr

/-- One event applied to the store state.  Only `getTasks` ever writes
the loading flag; `handleNewTask` and `handleDeleteTask` touch only the
task list. -/
def step (s : StoreState) : Event → StoreState
  | .settle r => getTasks r s
  | .create freshId t => { s with tasks := handleNewTask freshId t s.tasks }
  | .delete id => { s with tasks := handleDeleteTask id s.tasks }

/-- Running a sequence of events from a state. -/
def run (s : StoreState) (es : List Event) : StoreState :=
  es.foldl step s

/-- Whether an event is the settlement of the fetch. -/
def Event.isSettle : Event → Bool
  | .settle _ => true
  | .create _ _ => false
  | .delete _ => false

/-- Auxiliary to C5: along any event sequence, the loading flag is
cleared exactly when the sequence contains a settlement event or the flag
was already clear. -/
theorem run_loading_eq (es : List Event) (s : StoreState) :
    (run s es).loading = false ↔ (s.loading = false ∨ es.any Event.isSettle = true) := by
  induction es generalizing s with
  | nil => simp [run]
  | cons e es ih =>
    cases e with
    | settle r =>
      have hstep : (step s (.settle r)).loading = false := by
        cases r <;> rfl
      have : (run (step s (.settle r)) es).loading = false := by
        rw [ih]
        exact Or.inl hstep
      simp only [run, List.foldl_cons] at *
      simp [this, Event.isSettle, List.any_cons]
    | create freshId t =>
      simp only [run, List.foldl_cons]
      rw [show List.foldl step (step s (.create freshId t)) es = run (step s (.create freshId t)) es from rfl, ih]
      simp [step, Event.isSettle, List.any_cons]
    | delete id =>
      simp only [run, List.foldl_cons]
      rw [show List.foldl step (step s (.delete id)) es = run (step s (.delete id)) es from rfl, ih]
      simp [step, Event.isSettle, List.any_cons]

/-- C5: starting from store creation, the loading flag reads `false`
exactly on those event sequences that contain the fetch settlement.  So
it is `true` while the load is pending, flips when the fetch settles with
either outcome, and no later `create`/`delete` (nor anything else in the
event alphabet) ever returns it to `true`. -/
theorem run_loading_iff_settled (es : List Event) :
    (run initialState es).loading = false ↔ es.any Event.isSettle = true := by
  rw [run_loading_eq]
  simp [initialState]

/-- Instantiation of the C5 theorem: a trace in which the fetch settles
with a network error and a create follows has the loading flag cleared. -/
theorem run_loading_iff_settled_witness :
    (run initialState [Event.settle FetchResult.networkError, Event.create 2 "x"]).loading =
      false :=
  (run_loading_iff_settled [Event.settle FetchResult.networkError, Event.create 2 "x"]).mpr rfl

/-- The operations available after the load settles: `handleNewTask`
(with the `Math.random()` result explicit) and `handleDeleteTask`. -/
inductive Op where
  | create (freshId : Int) (title : String)
  | delete (id : Int)
  deriving DecidableEq, Repr

/-- One post-load operation applied to the task collection. -/
def applyOp (l : List Task) : Op → List Task
  | .create freshId t => handleNewTask freshId t l
  | .delete id => handleDeleteTask id l

/-- A sequence of post-load operations applied to the collection. -/
def applyOps (l : List Task) (ops : List Op) : List Task :=
  ops.foldl applyOp l

/-- The number of `create` calls in an operation sequence. -/
def numCreates : List Op → Nat
  | [] => 0
  | Op.create _ _ :: ops => numCreates ops + 1
  | Op.delete _ :: ops => numCreates ops

/-- The number of `delete` calls whose id matched a task present at the
time of the call, evaluated along the run from `l`. -/
def matchedDeletes : List Task → List Op → Nat
  | _, [] => 0
  | l, Op.create freshId t :: ops => matchedDeletes (handleNewTask freshId t l) ops
  | l, Op.delete id :: ops =>
      (if l.any (fun u => u.id == id) then 1 else 0) + matchedDeletes (handleDeleteTask id l) ops

/-- Whether every `create` in the sequence draws an id distinct from all
ids present in the collection at the moment of that call.  The source
performs no such check (`Math.random()` is used blindly); this predicate
names the assumption under which the spec's bookkeeping holds. -/
def uniqueRun : List Task → List Op → Bool
  | _, [] => true
  | l, Op.create freshId t :: ops =>
      l.all (fun u => u.id != freshId) && uniqueRun (handleNewTask freshId t l) ops
  | l, Op.delete id :: ops => uniqueRun (handleDeleteTask id l) ops

/-- When the present ids are pairwise distinct, a delete shortens the
collection by one exactly when some task matches, and by nothing
otherwise. -/
theorem handleDeleteTask_length_nodup (id : Int) (l : List Task)
    (h : (l.map Task.id).Nodup) :
    (handleDeleteTask id l).length + (if l.any (fun u => u.id == id) then 1 else 0) =
      l.length := by
  induction l with
  | nil => rfl
  | cons a l ih =>
    simp only [List.map_cons, List.nodup_cons] at h
    obtain ⟨ha, hl⟩ := h
    by_cases hid : a.id = id
    · have hkeep : handleDeleteTask id l = l := by
        apply List.filter_eq_self.mpr
        intro t ht
        have h1 : t.id ≠ a.id := fun he => ha (he ▸ List.mem_map_of_mem Task.id ht)
        have h2 : t.id ≠ id := hid ▸ h1
        simpa using h2
      have hdrop : handleDeleteTask id (a :: l) = handleDeleteTask id l := by
        simp [handleDeleteTask, hid]
      have hany : (a :: l).any (fun u => u.id == id) = true := by
        simp [List.any_cons, hid]
      rw [hdrop, hkeep, hany]
      simp
    · have hcons : handleDeleteTask id (a :: l) = a :: handleDeleteTask id l := by
        simp [handleDeleteTask, hid]
      have hany : (a :: l).any (fun u => u.id == id) = l.any (fun u => u.id == id) := by
        simp [List.any_cons, hid]
      rw [hcons, hany, List.length_cons, List.length_cons]
      have := ih hl
      omega

/-- Deleting preserves distinctness of the present ids. -/
theorem handleDeleteTask_nodup (id : Int) (l : List Task)
    (h : (l.map Task.id).Nodup) :
    ((handleDeleteTask id l).map Task.id).Nodup :=
  ((List.filter_sublist l).map Task.id).nodup h

/-- Creating with an id distinct from all present ids preserves
distinctness of the present ids. -/
theorem handleNewTask_nodup (freshId : Int) (t : String) (l : List Task)
    (h : (l.map Task.id).Nodup) (hfresh : ∀ u ∈ l, u.id ≠ freshId) :
    ((handleNewTask freshId t l).map Task.id).Nodup := by
  simp only [handleNewTask, List.map_append, List.map_cons, List.map_nil]
  rw [List.nodup_append]
  refine ⟨h, List.nodup_singleton _, ?_⟩
  intro x hx
  simp only [List.mem_singleton]
  obtain ⟨u, hu, rfl⟩ := List.mem_map.mp hx
  intro hcon
  exact hfresh u hu hcon

/-- C6 fails on the code as stated: the collection reached by loading a
payload whose two records share id 1 and then calling `deleteTask(1)` has
length 0, while the claimed formula yields 2 + 0 − 1 = 1 (the single
matched delete removes both records, because `handleDeleteTask` filters
every task with that id and the load validated nothing). -/
theorem applyOps_length_counterexample :
    (applyOps
        [{ id := 1, title := "a", description := "", completed := false },
         { id := 1, title := "b", description := "", completed := false }]
        [Op.delete 1]).length ≠
      ([{ id := (1 : Int), title := "a", description := "", completed := false },
        { id := 1, title := "b", description := "", completed := false }] : List Task).length +
        numCreates [Op.delete 1] -
        matchedDeletes
          [{ id := 1, title := "a", description := "", completed := false },
           { id := 1, title := "b", description := "", completed := false }]
          [Op.delete 1] := by
  decide

/-- C6 amended: when the loaded collection's ids are pairwise distinct
and every generated id is fresh at the moment of its `create`, the length
after any operation sequence equals the loaded count plus the number of
creates minus the number of deletes that matched a present task. -/
theorem applyOps_length (l : List Task) (ops : List Op)
    (h1 : (l.map Task.id).Nodup) (h2 : uniqueRun l ops = true) :
    (applyOps l ops).length + matchedDeletes l ops = l.length + numCreates ops := by
  induction ops generalizing l with
  | nil => simp [applyOps, matchedDeletes, numCreates]
  | cons op ops ih =>
    cases op with
    | create freshId t =>
      simp only [uniqueRun, Bool.and_eq_true, List.all_eq_true] at h2
      obtain ⟨hfresh, hrest⟩ := h2
      have hfresh' : ∀ u ∈ l, u.id ≠ freshId := by
        intro u hu
        have := hfresh u hu
        simpa using this
      have hnodup := handleNewTask_nodup freshId t l h1 hfresh'
      have := ih (handleNewTask freshId t l) hnodup hrest
      simp only [applyOps, List.foldl_cons, applyOp, matchedDeletes, numCreates]
      simp only [applyOps] at this
      rw [this]
      simp [handleNewTask]
      omega
    | delete id =>
      simp only [uniqueRun] at h2
      have hnodup := handleDeleteTask_nodup id l h1
      have hlen := handleDeleteTask_length_nodup id l h1
      have := ih (handleDeleteTask id l) hnodup h2
      simp only [applyOps, List.foldl_cons, applyOp, matchedDeletes, numCreates]
      simp only [applyOps] at this
      omega

/-- Instantiation of the amended C6 theorem: from one loaded task, one
fresh create, one matched delete and one unmatched delete give
1 + 1 = 1 + 1. -/
theorem applyOps_length_witness :
    (applyOps [{ id := 1, title := "a", description := "", completed := false }]
        [Op.create 2 "b", Op.delete 1, Op.delete 7]).length +
      matchedDeletes [{ id := 1, title := "a", description := "", completed := false }]
        [Op.create 2 "b", Op.delete 1, Op.delete 7] =
    ([{ id := (1 : Int), title := "a", description := "", completed := false }] : List Task).length +
      numCreates [Op.create 2 "b", Op.delete 1, Op.delete 7] :=
  applyOps_length _ _ (by decide) (by decide)

/-- C7 fails on the code as stated: the state reached from the loaded
collection `[{id:1, title:"a", ...}]` by a single `createTask` whose
`Math.random()` draw happens to be 1 holds two simultaneously-present
tasks with equal ids — `handleNewTask` checks nothing before appending. -/
theorem unique_ids_counterexample :
    ¬ ((applyOps [{ id := 1, title := "a", description := "", completed := false }]
          [Op.create 1 "x"]).map Task.id).Nodup := by
  decide

/-- C7 amended: when the loaded collection's ids are pairwise distinct
and every generated id is fresh at the moment of its `create`, every
state reachable by post-load operations has pairwise-distinct ids. -/
theorem applyOps_nodup (l : List Task) (ops : List Op)
    (h1 : (l.map Task.id).Nodup) (h2 : uniqueRun l ops = true) :
    ((applyOps l ops).map Task.id).Nodup := by
  induction ops generalizing l with
  | nil => simpa [applyOps] using h1
  | cons op ops ih =>
    cases op with
    | create freshId t =>
      simp only [uniqueRun, Bool.and_eq_true, List.all_eq_true] at h2
      obtain ⟨hfresh, hrest⟩ := h2
      have hfresh' : ∀ u ∈ l, u.id ≠ freshId := by
        intro u hu
        have := hfresh u hu
        simpa using this
      exact ih (handleNewTask freshId t l) (handleNewTask_nodup freshId t l h1 hfresh') hrest
    | delete id =>
      simp only [uniqueRun] at h2
      exact ih (handleDeleteTask id l) (handleDeleteTask_nodup id l h1) h2

/-- Instantiation of the amended C7 theorem: a fresh create followed by a
delete keeps the ids pairwise distinct. -/
theorem applyOps_nodup_witness :
    ((applyOps [{ id := 1, title := "a", description := "", completed := false }]
        [Op.create 2 "b", Op.delete 1]).map Task.id).Nodup :=
  applyOps_nodup _ _ (by decide) (by decide)

/-- The state owned by the `Tasks` view component (src/unnamed part
importing `./hooks/useTasks`): `useState("")` holding the draft text for
the next task. -/
structure ViewState where
  draft : String
  deriving DecidableEq, Repr

/-- The handler wired to the view's "new task" button,
`onClick={() => handleNewTask(newTask)}`: it invokes the store's
`handleNewTask` on the current draft and issues no `setNewTask`, so the
view state comes through as is. -/
def submitNewTask (freshId : Int) (v : ViewState) (store : List Task) :
    ViewState × List Task :=
  (v, handleNewTask freshId v.draft store)

/-- C8: submitting forwards the current draft to the store — the
collection gains exactly the record titled with the draft — and the
view's draft is not cleared or otherwise modified. -/
theorem submitNewTask_frame (freshId : Int) (v : ViewState) (store : List Task) :
    (submitNewTask freshId v store).1 = v ∧
    (submitNewTask freshId v store).2 =
      store ++ [{ id := freshId, title := v.draft, description := "", completed := true }] := by
  exact ⟨rfl, rfl⟩

/-- C9: one `deleteTask(id)` call leaves zero tasks carrying that id —
when several simultaneously-present tasks share the id, the single call
removes them all — and the call is idempotent. -/
theorem handleDeleteTask_all_idem (id : Int) (l : List Task) :
    (handleDeleteTask id l).countP (fun u => u.id == id) = 0 ∧
    handleDeleteTask id (handleDeleteTask id l) = handleDeleteTask id l := by
  constructor
  · rw [List.countP_eq_zero]
    intro t ht
    have := List.of_mem_filter ht
    simpa using this
  · apply List.filter_eq_self.mpr
    intro t ht
    have := List.of_mem_filter ht
    simpa using this

/-- JSON values, as `response.json()` can produce them.  TypeScript's
`Task[]` annotation on the state is erased at runtime, so the value
`setTasks(data)` stores is an arbitrary member of this type. -/
inductive Json where
  | null
  | bool (b : Bool)
  | num (n : Int)
  | str (s : String)
  | arr (elems : List Json)
  | obj (fields : List (String × Json))

/-- Whether a JSON value is an object with the four `Task` fields of the
right runtime types. -/
def isTaskObj : Json → Bool
  | .obj fields =>
      (match fields.lookup "id" with
        | some (.num _) => true
        | _ => false) &&
      (match fields.lookup "title" with
        | some (.str _) => true
        | _ => false) &&
      (match fields.lookup "description" with
        | some (.str _) => true
        | _ => false) &&
      (match fields.lookup "completed" with
        | some (.bool _) => true
        | _ => false)
  | _ => false

/-- Whether a JSON value is an array of Task-shaped records. -/
def isTaskArray : Json → Bool
  | .arr elems => elems.all isTaskObj
  | _ => false

/-- The hook state with the runtime-erased task type made explicit: the
collection slot holds whatever JSON value the load produced. -/
structure JsonStoreState where
  tasks : Json
  loading : Bool

/-- The outcomes of the fetch/parse sequence over raw JSON payloads. -/
inductive JsonFetchResult where
  | networkError
  | httpError
  | parseError
  | success (data : Json)

/-- `getTasks` over raw JSON payloads: the `try` block runs
`setTasks(data)` on whatever `response.json()` returned, with no check
that it is an array of tasks; failures are swallowed and `finally`
clears the loading flag. -/
def getTasksJson (r : JsonFetchResult) (s : JsonStoreState) : JsonStoreState :=
  match r with
  | .success data => { tasks := data, loading := false }
  | .networkError => { s with loading := false }
  | .httpError => { s with loading := false }
  | .parseError => { s with loading := false }

/-- C10: a successfully parsed payload is stored as the collection
unconditionally — even one that is not an array of Task-shaped records is
assigned verbatim rather than being routed to the failure branch. -/
theorem getTasksJson_unvalidated (j : Json) (s : JsonStoreState)
    (h : isTaskArray j = false) :
    getTasksJson (JsonFetchResult.success j) s = { tasks := j, loading := false } := by
  rfl

/-- Instantiation of the C10 theorem: the bare string payload
`"not tasks"` becomes the collection. -/
theorem getTasksJson_unvalidated_witness :
    getTasksJson (JsonFetchResult.success (Json.str "not tasks"))
        { tasks := Json.arr [], loading := true } =
      { tasks := Json.str "not tasks", loading := false } :=
  getTasksJson_unvalidated (Json.str "not tasks") { tasks := Json.arr [], loading := true } rfl

end TaskHook
